import Mathlib

/-!
Verification of the bookstore ETL transformation stage (`src/transform.py`,
`config/settings.py`).  Raw cell values are modelled as a tagged union
`Scalar` (absent marker, text, or number); numeric values are modelled as
exact rationals.  Each field normalizer from the source is embedded as a
total Lean function, with the external `dateutil` parser abstracted as an
oracle parameter and Python regular-expression operations implemented as
explicit character-list scans with the same matching semantics.
-/

unseal Rat.mul Rat.add Rat.inv Rat.sub

/-- Raw dynamically-typed cell value: the absent marker (None/NaN), a text
value, or a numeric value. -/
inductive Scalar where
  | absent
  | text (s : String)
  | num (q : ℚ)
deriving DecidableEq

/-- NULL_VALUES from config/settings.py (the None entry is the absent
marker, covered by `Scalar.absent`). -/
def nullTokens : List String := ["NULL", "None", "", " ", "\t"]

/-- EUR_TO_USD from config/settings.py. -/
def EUR_TO_USD : ℚ := 6/5

/-- Python / regex whitespace characters (ASCII). -/
def isPySpace (c : Char) : Bool :=
  c = ' ' || c = '\t' || c = '\n' || c = '\r' || c = Char.ofNat 11 || c = Char.ofNat 12

/-- Python str.strip on a character list. -/
def pyStripL (l : List Char) : List Char :=
  ((l.dropWhile isPySpace).reverse.dropWhile isPySpace).reverse

/-- Python str.strip on a string. -/
def pyStrip (s : String) : String := String.mk (pyStripL s.toList)

/-- Word character for the regex \b boundary (ASCII \w). -/
def isWordChar (c : Char) : Bool := c.isAlphanum || c = '_'

/-- Substring containment (used for the EUR marker search). -/
def hasSub (pat : List Char) : List Char → Bool
  | [] => pat.isEmpty
  | c :: rest => pat.isPrefixOf (c :: rest) || hasSub pat rest

/-- re.search(r'[€]|EUR', s, re.IGNORECASE): Euro marker detection. -/
def hasEuroMark (l : List Char) : Bool :=
  l.contains '€' || hasSub ['e', 'u', 'r'] (l.map Char.toLower)

/-- re.sub(r'[€$]|EUR|USD', '', s, flags=re.IGNORECASE): removes currency
symbols and tokens, scanning left to right as the regex engine does.  The
fuel argument (initialised to the list length) only forces termination;
every step consumes at least one character. -/
def rmCurF : ℕ → List Char → List Char
  | 0, s => s
  | _ + 1, [] => []
  | fuel + 1, c :: rest =>
    if c = '€' ∨ c = '$' then rmCurF fuel rest
    else
      match rest with
      | r1 :: r2 :: rs =>
        if (c.toLower = 'e' ∧ r1.toLower = 'u' ∧ r2.toLower = 'r')
            ∨ (c.toLower = 'u' ∧ r1.toLower = 's' ∧ r2.toLower = 'd') then
          rmCurF fuel rs
        else c :: rmCurF fuel rest
      | _ => c :: rmCurF fuel rest

/-- Currency-symbol removal applied to a whole character list. -/
def rmCurAux (l : List Char) : List Char := rmCurF l.length l

/-- Numeric value of a digit string (fold as base 10). -/
def digitsToNat (l : List Char) : ℕ :=
  l.foldl (fun n c => 10 * n + (c.toNat - 48)) 0

/-- Value of the cents notation float(f"{dollars}.{cents}"). -/
def centVal (d1 d2 : List Char) : ℚ :=
  (digitsToNat d1 : ℚ) + (digitsToNat d2 : ℚ) / (10 : ℚ) ^ d2.length

/-- Attempt of the regex (\d+)\s*¢\s*(\d+) anchored at the head of the
list: a nonempty digit run, optional spaces, the cent glyph, optional
spaces, a nonempty digit run. -/
def centAt (l : List Char) : Option (List Char × List Char) :=
  match l.span Char.isDigit with
  | (d1, r1) =>
    if d1.isEmpty then none
    else
      match r1.dropWhile isPySpace with
      | '¢' :: r3 =>
        match (r3.dropWhile isPySpace).takeWhile Char.isDigit with
        | [] => none
        | d2 => some (d1, d2)
      | _ => none

/-- re.search of the cents pattern: leftmost match. -/
def centSearch : List Char → Option (List Char × List Char)
  | [] => none
  | c :: rest =>
    match centAt (c :: rest) with
    | some x => some x
    | none => centSearch rest

/-- Keep only digits and decimal points, after dropping cent glyphs
(re.sub(r'¢','',s) then re.sub(r'[^\d.]','',s)). -/
def generalDigits (cleaned : List Char) : List Char :=
  (cleaned.filter (fun c => c ≠ '¢')).filter (fun c => c.isDigit || c = '.')

/-- Multi-decimal-point fallback: keep the first dot as separator and
concatenate everything after it (parts[0] + '.' + join of the rest). -/
def collapseDots (l : List Char) : List Char :=
  if l.count '.' ≤ 1 then l
  else
    match l.span (fun c => c ≠ '.') with
    | (a, b) => a ++ '.' :: (b.drop 1).filter (fun c => c ≠ '.')

/-- Value of a cleaned numeric string of digits with at most one dot
(Python float of "int.frac", where either side may be empty). -/
def digitsDotVal (l : List Char) : ℚ :=
  match l.span (fun c => c ≠ '.') with
  | (a, b) => (digitsToNat a : ℚ) + (digitsToNat (b.drop 1) : ℚ) / (10 : ℚ) ^ (b.drop 1).length

/-- Round half to even on rationals (Python round's tie-breaking),
computed on the reduced fraction: f is the floor, r the remainder, and
the fractional part r/den is compared with 1/2. -/
def roundHalfEven (q : ℚ) : ℤ :=
  let f := Int.fdiv q.num (q.den : ℤ)
  let r := q.num - (q.den : ℤ) * f
  if 2 * r < (q.den : ℤ) then f
  else if (q.den : ℤ) < 2 * r then f + 1
  else if f % 2 = 0 then f else f + 1

/-- Python round(x, 2). -/
def roundTo2 (q : ℚ) : ℚ := (roundHalfEven (q * 100) : ℚ) / 100

/-- EUR→USD conversion step of parse_price: applied only when the Euro
marker was detected. -/
def applyEuro (e : Bool) (q : ℚ) : ℚ := if e then q * EUR_TO_USD else q

/-- Numeric extraction stage of parse_price on the currency-stripped
text: the cents-notation special case, otherwise digit extraction with
the empty / lone-dot guard and the multi-dot fallback. -/
def priceValue (cleaned : List Char) : Option ℚ :=
  match centSearch cleaned with
  | some (d1, d2) => some (centVal d1 d2)
  | none =>
    if generalDigits cleaned = [] ∨ generalDigits cleaned = ['.'] then none
    else if collapseDots (generalDigits cleaned) = ['.'] then none
    else some (digitsDotVal (collapseDots (generalDigits cleaned)))

/-- parse_price from src/transform.py.  A numeric input round-trips
through str(float); its sign is stripped with the other non-digit
characters, so the result is round(|q|, 2). -/
def parse_price (v : Scalar) : Option ℚ :=
  match v with
  | .absent => none
  | .num q => some (roundTo2 |q|)
  | .text s =>
    if s ∈ nullTokens then none
    else
      match priceValue (pyStripL (rmCurAux (pyStripL s.toList))) with
      | none => none
      | some value => some (roundTo2 (applyEuro (hasEuroMark (pyStripL s.toList)) value))

/-- df[col].replace(NULL_VALUES, np.nan): exact-match replacement of the
configured null tokens (None replaces to NaN as well). -/
def replaceNullTokens (v : Scalar) : Scalar :=
  match v with
  | .absent => .absent
  | .text s => if s ∈ nullTokens then .absent else .text s
  | .num q => .num q

/-- Strings the clean_null_values lambda recognises after strip. -/
def lambdaNullStrings : List String := ["", "nan", "NaN", "NULL", "None"]

/-- The clean_null_values lambda: textual values whose strip is one of
the listed spellings become NaN; everything else is untouched. -/
def applyNullLambda (v : Scalar) : Scalar :=
  match v with
  | .text s => if pyStrip s ∈ lambdaNullStrings then .absent else .text s
  | v => v

/-- clean_null_values from src/transform.py, per scalar cell: the exact
replace pass followed by the strip-and-compare lambda pass. -/
def clean_null_values (v : Scalar) : Scalar :=
  applyNullLambda (replaceNullTokens v)

/-- Python str.split(',') on a character list: the list of groups
between commas (the empty string splits to one empty group). -/
def splitCommaL : List Char → List (List Char)
  | [] => [[]]
  | c :: rest =>
    if c = ',' then [] :: splitCommaL rest
    else
      match splitCommaL rest with
      | [] => [[c]]
      | g :: gs => (c :: g) :: gs

/-- Author tokens of create_author_set: comma split, strip, lowercase,
drop empty strings. -/
def authorTokens (s : String) : List String :=
  ((splitCommaL s.toList).map
    (fun a => String.mk ((pyStripL a).map Char.toLower))).filter (fun a => a ≠ "")

/-- create_author_set from src/transform.py: frozenset of the author
tokens, absent input or no tokens giving the absent key. -/
def create_author_set (author : Option String) : Option (Finset String) :=
  match author with
  | none => none
  | some s => if authorTokens s = [] then none else some (authorTokens s).toFinset

/-- Timestamp value as parsed by the external date parser: a naive
calendar date with optional time-of-day. -/
structure PyTimestamp where
  year : ℕ
  month : ℕ
  day : ℕ
  hour : ℕ
  minute : ℕ
  second : ℕ
deriving DecidableEq

/-- Zero-padded 2-digit field of strftime. -/
def pad2 (n : ℕ) : String := if n < 10 then "0" ++ toString n else toString n

/-- Zero-padded 4-digit year of strftime. -/
def pad4 (n : ℕ) : String :=
  if n < 10 then "000" ++ toString n
  else if n < 100 then "00" ++ toString n
  else if n < 1000 then "0" ++ toString n
  else toString n

/-- strftime('%Y-%m-%d') of a parsed timestamp. -/
def dateString (t : PyTimestamp) : String :=
  pad4 t.year ++ "-" ++ pad2 t.month ++ "-" ++ pad2 t.day

/-- re.sub(r';', ' ', s): semicolons become spaces. -/
def subSemicolon (l : List Char) : List Char :=
  l.map (fun c => if c = ';' then ' ' else c)

/-- re.sub(r',\s*', ' ', s): a comma plus following whitespace becomes a
single space (the Bool flag is true while whitespace after a comma is
being consumed). -/
def subCommaWsAux : Bool → List Char → List Char
  | _, [] => []
  | skip, c :: rest =>
    if skip ∧ isPySpace c then subCommaWsAux true rest
    else if c = ',' then ' ' :: subCommaWsAux true rest
    else c :: subCommaWsAux false rest

/-- re.sub(r'A\.M\.', 'AM', ...) / re.sub(r'P\.M\.', 'PM', ...) with
IGNORECASE: lead is the lowercase first letter, rep its uppercase
replacement.  Fuel is the list length (each step consumes a character). -/
def subMerDotF (lead rep : Char) : ℕ → List Char → List Char
  | 0, s => s
  | _ + 1, [] => []
  | fuel + 1, c0 :: rest =>
    match rest with
    | c1 :: c2 :: c3 :: rest2 =>
      if c0.toLower = lead ∧ c1 = '.' ∧ c2.toLower = 'm' ∧ c3 = '.' then
        rep :: 'M' :: subMerDotF lead rep fuel rest2
      else c0 :: subMerDotF lead rep fuel rest
    | _ => c0 :: rest

/-- re.sub(r'\s+am\b', ' AM', ...) / r'\s+pm\b' with IGNORECASE: a
whitespace run followed by the meridiem token at a word boundary becomes
a single space plus the uppercase token. -/
def subWsMerF (lead rep : Char) : ℕ → List Char → List Char
  | 0, s => s
  | _ + 1, [] => []
  | fuel + 1, c :: rest =>
    if isPySpace c then
      match rest.dropWhile isPySpace with
      | m0 :: m1 :: r =>
        if m0.toLower = lead ∧ m1.toLower = 'm' ∧ ¬ isWordChar (r.headD ' ') then
          ' ' :: rep :: 'M' :: subWsMerF lead rep fuel r
        else c :: subWsMerF lead rep fuel rest
      | _ => c :: subWsMerF lead rep fuel rest
    else c :: subWsMerF lead rep fuel rest

/-- re.sub(r'T', ' ', s): the ISO separator becomes a space. -/
def subT (l : List Char) : List Char :=
  l.map (fun c => if c = 'T' then ' ' else c)

/-- The textual preprocessing pipeline of parse_timestamp: strip, then
the separator and meridiem substitutions in source order. -/
def tsPre (s : String) : String :=
  let l0 := pyStripL s.toList
  let l1 := subSemicolon l0
  let l2 := subCommaWsAux false l1
  let l3 := subMerDotF 'a' 'A' l2.length l2
  let l4 := subMerDotF 'p' 'P' l3.length l3
  let l5 := subWsMerF 'a' 'A' l4.length l4
  let l6 := subWsMerF 'p' 'P' l5.length l5
  String.mk (subT l6)

/-- Fallback string form of a numeric scalar (str of the value). -/
def ratRepr (q : ℚ) : String := toString q.num ++ "/" ++ toString q.den

/-- parse_timestamp from src/transform.py, with the external
dateutil.parser.parse(·, fuzzy=True, dayfirst=d) abstracted as an oracle
taking the dayfirst flag and the preprocessed text: null-like input is
absent, otherwise the month-first attempt runs first and the day-first
attempt runs only if the first attempt fails; if both fail the result is
absent (the function is total, so no exception escapes). -/
def parse_timestamp (oracle : Bool → String → Option PyTimestamp) : Scalar → Option PyTimestamp
  | .absent => none
  | .text s =>
    if s ∈ nullTokens then none
    else
      match oracle false (tsPre s) with
      | some d => some d
      | none => oracle true (tsPre s)
  | .num q =>
    match oracle false (tsPre (ratRepr q)) with
    | some d => some d
    | none => oracle true (tsPre (ratRepr q))

/-- One run of the two field normalizers over a raw scalar.  A run's
external state — everything the bundled date parser sees besides the
text, in particular the current date it uses to complete components
missing from the text — is the oracle argument, so two runs made at
different times are two applications with different oracles. -/
def runNormalizers (oracle : Bool → String → Option PyTimestamp) (v : Scalar) :
    Option ℚ × Option PyTimestamp :=
  (parse_price v, parse_timestamp oracle v)

/-- One honorific pattern of normalize_name: either a literal token with
an optional trailing period (regex \btok\.?\b) or a run of the letter i
of at least the given length (regex \bi+\b and friends). -/
inductive TitlePat where
  | tok (t : List Char) (optDot : Bool)
  | irun (minRun : ℕ)

/-- Attempt of a title pattern anchored at the head of the list, the
boundary before the head being established by the caller.  Returns the
rest after the match and whether the final matched character is a word
character (for the \b bookkeeping of the continued scan).  The trailing
\b makes the optional period match only when a word character follows
it; otherwise the regex backtracks and leaves the period in place. -/
def matchPatAt : TitlePat → List Char → Option (List Char × Bool)
  | .tok [] _, _ => none
  | .tok (t0 :: ts) optDot, s =>
    if (t0 :: ts).isPrefixOf s then
      match s.drop (t0 :: ts).length with
      | '.' :: r2 =>
        if optDot then
          if isWordChar (r2.headD ' ') then some (r2, false)
          else some ('.' :: r2, true)
        else some ('.' :: r2, true)
      | c :: r2 => if isWordChar c then none else some (c :: r2, true)
      | [] => some ([], true)
    else none
  | .irun m, s =>
    if 1 ≤ m ∧ m ≤ (s.takeWhile (fun c => c = 'i')).length
        ∧ ¬ isWordChar ((s.dropWhile (fun c => c = 'i')).headD ' ') then
      some (s.dropWhile (fun c => c = 'i'), true)
    else none

/-- re.sub of one title pattern with the empty replacement: scan left to
right over the original characters, tracking whether the previous
original character was a word character (the \b state).  Fuel is the
list length; every step consumes at least one character. -/
def subPatF (p : TitlePat) : ℕ → Bool → List Char → List Char
  | 0, _, s => s
  | _ + 1, _, [] => []
  | fuel + 1, prevWord, c :: rest =>
    if prevWord then c :: subPatF p fuel (isWordChar c) rest
    else
      match matchPatAt p (c :: rest) with
      | some (r, lw) => subPatF p fuel lw r
      | none => c :: subPatF p fuel (isWordChar c) rest

/-- One full substitution pass of a title pattern over a string. -/
def subPat (p : TitlePat) (s : List Char) : List Char :=
  subPatF p s.length false s

/-- The honorific/suffix catalog of normalize_name, in source order. -/
def titles : List TitlePat := [
  .tok "mr".toList true, .tok "mrs".toList true, .tok "ms".toList true,
  .tok "dr".toList true, .tok "prof".toList true,
  .tok "rev".toList true, .tok "fr".toList true, .tok "msgr".toList true,
  .tok "gov".toList true, .tok "rep".toList true,
  .tok "sen".toList true, .tok "amb".toList true, .tok "the hon".toList true,
  .tok "esq".toList true,
  .tok "jr".toList true, .tok "sr".toList true,
  .irun 1, .irun 2, .irun 3, .tok "iv".toList false, .tok "v".toList false,
  .tok "phd".toList false, .tok "md".toList false, .tok "dds".toList false,
  .tok "do".toList false, .tok "dvm".toList false, .tok "cpa".toList false,
  .tok "lld".toList false, .tok "dc".toList false, .tok "vm".toList false,
  .tok "ret".toList true, .tok "miss".toList false]

/-- re.sub(r'\s+', ' ', s): collapse whitespace runs to single spaces. -/
def collapseWsAux : Bool → List Char → List Char
  | _, [] => []
  | prev, c :: rest =>
    if isPySpace c then
      if prev then collapseWsAux true rest else ' ' :: collapseWsAux true rest
    else c :: collapseWsAux false rest

/-- normalize_name from src/transform.py: strip and lowercase, remove
each catalog pattern in order, collapse whitespace, strip again; an
empty result is absent. -/
def normalize_name (name : Option String) : Option String :=
  match name with
  | none => none
  | some n =>
    let s0 := (pyStripL n.toList).map Char.toLower
    let s1 := titles.foldl (fun acc p => subPat p acc) s0
    let s2 := pyStripL (collapseWsAux false s1)
    if s2.isEmpty then none else some (String.mk s2)

/-- Raw orders row (the columns transform_orders touches). -/
structure OrderRow where
  user_id : Scalar
  book_id : Scalar
  quantity : Scalar
  unit_price : Scalar
  timestamp : Scalar
  shipping : Scalar
deriving DecidableEq

/-- Transformed orders row: the sanitized original columns plus the
derived columns added by transform_orders. -/
structure TransOrder where
  user_id : Scalar
  book_id : Scalar
  quantity : Scalar
  unit_price : Scalar
  timestamp : Scalar
  shipping : Scalar
  unit_price_usd : Scalar
  parsed_timestamp : Option PyTimestamp
  date : Scalar
  paid_price : Scalar
deriving DecidableEq

deriving instance DecidableEq for Except

/-- unit_price_usd column value: parse_price result as a scalar. -/
def usdOf (v : Scalar) : Scalar :=
  match parse_price v with
  | some q => .num q
  | none => .absent

/-- date column value: strftime of the parsed timestamp, or absent. -/
def dateOf (pt : Option PyTimestamp) : Scalar :=
  match pt with
  | some d => .text (dateString d)
  | none => .absent

/-- Element-wise pandas multiplication on object values: positions where
either operand is missing are masked to NaN without applying the
operator; two numbers multiply; any other combination applies the Python
operator, which raises TypeError for text times float. -/
def pyMul (a b : Scalar) : Except String Scalar :=
  if a = .absent ∨ b = .absent then .ok .absent
  else
    match a, b with
    | .num x, .num y => .ok (.num (x * y))
    | _, _ => .error "TypeError"

/-- transform_orders on one row: sanitize unit_price, timestamp and
shipping, derive unit_price_usd, parsed_timestamp, date and paid_price
(quantity and the id columns are untouched). -/
def transformOrderRow (oracle : Bool → String → Option PyTimestamp) (r : OrderRow) :
    Except String TransOrder :=
  match pyMul r.quantity (usdOf (clean_null_values r.unit_price)) with
  | .error e => .error e
  | .ok paid =>
    .ok ⟨r.user_id, r.book_id, r.quantity,
      clean_null_values r.unit_price, clean_null_values r.timestamp,
      clean_null_values r.shipping,
      usdOf (clean_null_values r.unit_price),
      parse_timestamp oracle (clean_null_values r.timestamp),
      dateOf (parse_timestamp oracle (clean_null_values r.timestamp)),
      paid⟩

/-- dropna(subset=['unit_price_usd', 'date', 'user_id', 'book_id']):
keep a row iff all four are non-absent. -/
def keepOrder (t : TransOrder) : Bool :=
  decide (t.unit_price_usd ≠ .absent) && decide (t.date ≠ .absent)
    && decide (t.user_id ≠ .absent) && decide (t.book_id ≠ .absent)

/-- Row-wise application that propagates the first raised exception. -/
def exceptMap (f : α → Except String β) : List α → Except String (List β)
  | [] => .ok []
  | a :: as =>
    match f a with
    | .error e => .error e
    | .ok b =>
      match exceptMap f as with
      | .error e => .error e
      | .ok bs => .ok (b :: bs)

/-- transform_orders from src/transform.py over a list of rows: derive
the new columns row by row, then drop the rows with a missing required
field. -/
def transform_orders (oracle : Bool → String → Option PyTimestamp) (rows : List OrderRow) :
    Except String (List TransOrder) :=
  match exceptMap (transformOrderRow oracle) rows with
  | .error e => .error e
  | .ok ts => .ok (ts.filter keepOrder)

/-- Oracle that always fails to parse (used in concrete instances). -/
def oracleNone : Bool → String → Option PyTimestamp := fun _ _ => none

/-- Oracle recognising exactly the preprocessed end-to-end timestamp on
the month-first attempt (used in concrete instances). -/
def oracleC6 : Bool → String → Option PyTimestamp :=
  fun dayfirst t =>
    if dayfirst = false ∧ t = "2024-03-01 10:15:00" then some ⟨2024, 3, 1, 10, 15, 0⟩
    else none

/-- The external fuzzy parser at one moment, on one year-less input:
dateutil.parser.parse is called without a default, so it completes the
components missing from the text from the current date — "March 5"
gets the year of the run.  The argument is that current year. -/
def duYearDefault (nowYear : ℕ) : Bool → String → Option PyTimestamp :=
  fun _ t => if t = "March 5" then some ⟨nowYear, 3, 5, 0, 0, 0⟩ else none

/-- Concrete row with a numeric quantity and parseable price whose
timestamp the oracle cannot parse. -/
def wRow2 : OrderRow :=
  ⟨.text "u1", .text "b1", .num 2, .text "5.00", .text "ts", .absent⟩

/-- Transform of wRow2 under the failing oracle. -/
def wTrans : TransOrder :=
  ⟨.text "u1", .text "b1", .num 2, .text "5.00", .text "ts", .absent,
    .num 5, none, .absent, .num 10⟩

/-- Concrete row with a malformed, textual quantity. -/
def badQtyRow : OrderRow :=
  ⟨.text "u1", .text "b1", .text "two", .text "5.00", .text "ts", .absent⟩

/-- End-to-end row of the spec: price "€ 9,99", ISO timestamp,
quantity 2, valid references. -/
def e2eRow : OrderRow :=
  ⟨.text "u1", .text "b1", .num 2, .text "€ 9,99",
    .text "2024-03-01T10:15:00", .absent⟩

/-! Sanity checks of the embedding on concrete values. -/

example : clean_null_values (.text "null") = .text "null" := by decide
example : clean_null_values (.text " NaN ") = .absent := by decide
example : clean_null_values (.text "NULL") = .absent := by decide
example : clean_null_values (.text "\t") = .absent := by decide
example : clean_null_values (.num 3) = .num 3 := by decide
example : tsPre "2024-03-01T10:15:00" = "2024-03-01 10:15:00" := by decide
example : tsPre " 5;30 p.m. " = "5 30 PM" := by decide
example : tsPre "Jan 3, 2024 7 pm" = "Jan 3 2024 7 PM" := by decide
example : authorTokens "Bob, Alice, Alice" = ["bob", "alice", "alice"] := by decide
example : (authorTokens "Bob, Alice, Alice").toFinset = (authorTokens "alice , bob").toFinset := by
  have h1 : authorTokens "Bob, Alice, Alice" = ["bob", "alice", "alice"] := by decide
  have h2 : authorTokens "alice , bob" = ["alice", "bob"] := by decide
  rw [h1, h2]
  ext a
  simp only [List.toFinset_cons, List.toFinset_nil, Finset.mem_insert]
  tauto

example : create_author_set (some " , ,") = none := by
  have h : authorTokens " , ," = [] := by decide
  simp [create_author_set, h]

example : normalize_name (some "Dr. Jane Smith") = some ". jane smith" := by decide
example : normalize_name (some "Andre") = some "andre" := by decide
example : normalize_name (some "Jane Smith PhD") = some "jane smith" := by decide
example : normalize_name (some "dr.house") = some "house" := by decide
example : normalize_name (some "  Mr  ") = none := by decide
example : normalize_name (some "John Smith III") = some "john smith" := by decide
example : normalize_name none = none := by decide

example : transformOrderRow oracleNone wRow2 = .ok wTrans := by decide
example : transform_orders oracleNone [wRow2] = .ok [] := by decide
example : transform_orders oracleNone [badQtyRow] = .error "TypeError" := by decide
example : transformOrderRow oracleC6 e2eRow =
    .ok ⟨.text "u1", .text "b1", .num 2, .text "€ 9,99",
      .text "2024-03-01T10:15:00", .absent,
      .num (5994/5), some ⟨2024, 3, 1, 10, 15, 0⟩, .text "2024-03-01",
      .num (11988/5)⟩ := by decide
example : parse_timestamp oracleC6 (.text "2024-03-01T10:15:00") =
    some ⟨2024, 3, 1, 10, 15, 0⟩ := by decide

example : parse_price (.text "12,50 €") = some 1500 := by decide
example : parse_price (.text "EUR 12.50") = some 15 := by decide
example : parse_price (.text "€ 9,99") = some (5994/5) := by decide
example : parse_price (.text "3¢50") = some (7/2) := by decide
example : parse_price (.text "$3¢50") = some (7/2) := by decide
example : parse_price (.text "-3.50") = some (7/2) := by decide
example : parse_price (.text "abc") = none := by decide
example : parse_price (.text "NULL") = none := by decide

/-! Helper lemmas. -/

theorem keepOrder_iff (t : TransOrder) :
    keepOrder t = true ↔
      t.unit_price_usd ≠ Scalar.absent ∧ t.date ≠ Scalar.absent ∧
      t.user_id ≠ Scalar.absent ∧ t.book_id ≠ Scalar.absent := by
  simp [keepOrder, Bool.and_eq_true, decide_eq_true_eq, and_assoc]

theorem exceptMap_mem {α β : Type} {f : α → Except String β} :
    ∀ {l : List α} {ts : List β} {a : α} {b : β},
      exceptMap f l = .ok ts → a ∈ l → f a = .ok b → b ∈ ts := by
  intro l
  induction l with
  | nil => intro ts a b h ha _; simp at ha
  | cons x xs ih =>
    intro ts a b h ha hf
    rw [exceptMap] at h
    split at h
    · exact absurd h (by simp)
    · rename_i b1 heq1
      split at h
      · exact absurd h (by simp)
      · rename_i bs heq2
        injection h with hts
        subst hts
        rcases List.mem_cons.mp ha with rfl | ha2
        · rw [hf] at heq1
          injection heq1 with hb
          subst hb
          exact List.mem_cons_self _ _
        · exact List.mem_cons_of_mem _ (ih heq2 ha2 hf)

theorem centVal_nonneg (d1 d2 : List Char) : 0 ≤ centVal d1 d2 := by
  unfold centVal
  positivity

theorem digitsDotVal_nonneg (l : List Char) : 0 ≤ digitsDotVal l := by
  unfold digitsDotVal
  positivity

theorem priceValue_nonneg {l : List Char} {v : ℚ} (h : priceValue l = some v) : 0 ≤ v := by
  rw [priceValue] at h
  split at h
  · rename_i d1 d2 heq
    injection h with hv
    subst hv
    exact centVal_nonneg d1 d2
  · split_ifs at h with h1 h2
    injection h with hv
    subst hv
    exact digitsDotVal_nonneg _

theorem applyEuro_nonneg (e : Bool) (q : ℚ) (h : 0 ≤ q) : 0 ≤ applyEuro e q := by
  unfold applyEuro
  split_ifs
  · exact mul_nonneg h (by norm_num [EUR_TO_USD])
  · exact h

theorem roundHalfEven_nonneg {q : ℚ} (h : 0 ≤ q) : 0 ≤ roundHalfEven q := by
  unfold roundHalfEven
  have hd : (0 : ℤ) < (q.den : ℤ) := by
    exact_mod_cast Nat.pos_of_ne_zero q.den_nz
  have hn : 0 ≤ q.num := Rat.num_nonneg.mpr h
  have hf : 0 ≤ Int.fdiv q.num (q.den : ℤ) := Int.fdiv_nonneg hn (le_of_lt hd)
  dsimp only
  split_ifs <;> omega

theorem roundTo2_nonneg {q : ℚ} (h : 0 ≤ q) : 0 ≤ roundTo2 q := by
  unfold roundTo2
  have h1 : 0 ≤ roundHalfEven (q * 100) := roundHalfEven_nonneg (by positivity)
  have h2 : (0 : ℚ) ≤ (roundHalfEven (q * 100) : ℚ) := by exact_mod_cast h1
  exact div_nonneg h2 (by norm_num)

/-! Claim theorems. -/

/-- C1 counterexample: parse_price does not treat the comma of
"12,50 €" as a decimal separator — the result differs from
round(12.50 × EUR_TO_USD, 2) and from the value of "EUR 12.50". -/
theorem c1_euro_comma_counterexample :
    parse_price (Scalar.text "12,50 €") ≠ parse_price (Scalar.text "EUR 12.50") ∧
    parse_price (Scalar.text "12,50 €") ≠ some (roundTo2 ((25/2) * EUR_TO_USD)) := by
  decide

/-- C1 amended: the comma is stripped like any other non-digit
character, so "12,50 €" parses as 1250 EUR and converts to 1500.00 USD,
while "EUR 12.50" parses to round(12.50 × EUR_TO_USD, 2) = 15.00 and
"€ 9,99" parses as 999 EUR to round(999 × EUR_TO_USD, 2) = 1198.80. -/
theorem c1_euro_prices_amended :
    parse_price (Scalar.text "12,50 €") = some 1500 ∧
    parse_price (Scalar.text "EUR 12.50") = some (roundTo2 ((25/2) * EUR_TO_USD)) ∧
    parse_price (Scalar.text "EUR 12.50") = some 15 ∧
    parse_price (Scalar.text "€ 9,99") = some (roundTo2 ((999 : ℚ) * EUR_TO_USD)) ∧
    parse_price (Scalar.text "€ 9,99") = some (5994/5) := by
  decide

/-- C2: when transform_orders succeeds, every output row has non-absent
unit_price_usd, date, user_id and book_id; and a row produced from an
input row is in the output exactly when it passes that requirement, so
failing rows are dropped, never repaired. -/
theorem c2_orders_required_fields (oracle : Bool → String → Option PyTimestamp)
    (rows : List OrderRow) (out : List TransOrder)
    (h : transform_orders oracle rows = .ok out) :
    (∀ t ∈ out, t.unit_price_usd ≠ Scalar.absent ∧ t.date ≠ Scalar.absent ∧
      t.user_id ≠ Scalar.absent ∧ t.book_id ≠ Scalar.absent) ∧
    (∀ r ∈ rows, ∀ t, transformOrderRow oracle r = .ok t →
      (t ∈ out ↔ keepOrder t = true)) := by
  rw [transform_orders] at h
  split at h
  · exact absurd h (by simp)
  · rename_i ts heq
    injection h with hout
    subst hout
    constructor
    · intro t ht
      exact (keepOrder_iff t).mp (List.mem_filter.mp ht).2
    · intro r hr t hstep
      constructor
      · intro htout
        exact (List.mem_filter.mp htout).2
      · intro hk
        exact List.mem_filter.mpr ⟨exceptMap_mem heq hr hstep, hk⟩

/-- C2 witness: the theorem applied to a concrete batch whose single row
loses its date and is dropped. -/
theorem c2_orders_required_fields_witness :
    (∀ t ∈ ([] : List TransOrder), t.unit_price_usd ≠ Scalar.absent ∧
      t.date ≠ Scalar.absent ∧ t.user_id ≠ Scalar.absent ∧ t.book_id ≠ Scalar.absent) ∧
    (∀ r ∈ [wRow2], ∀ t, transformOrderRow oracleNone r = .ok t →
      (t ∈ ([] : List TransOrder) ↔ keepOrder t = true)) :=
  c2_orders_required_fields oracleNone [wRow2] [] (by decide)

/-- C3 counterexample: the lowercase spelling "null" is not replaced by
the sanitizer, although it case-insensitively equals "null". -/
theorem c3_null_case_counterexample :
    clean_null_values (Scalar.text "null") = Scalar.text "null" ∧
    Scalar.text "null" ≠ Scalar.absent := by
  decide

/-- C3 amended: a textual value is replaced by the absent marker exactly
when it is one of the configured raw tokens or its stripped form is one
of the exact spellings "", "nan", "NaN", "NULL", "None" (case-sensitive,
not the case-insensitive set of the claim); everything else, and every
numeric value, passes through unchanged, and the absent marker stays
absent. -/
theorem c3_null_sanitizer_amended :
    (∀ s : String, clean_null_values (Scalar.text s) =
      (if s ∈ nullTokens ∨ pyStrip s ∈ lambdaNullStrings then Scalar.absent
       else Scalar.text s)) ∧
    clean_null_values Scalar.absent = Scalar.absent ∧
    (∀ q : ℚ, clean_null_values (Scalar.num q) = Scalar.num q) := by
  refine ⟨fun s => ?_, rfl, fun q => rfl⟩
  by_cases h1 : s ∈ nullTokens <;> by_cases h2 : pyStrip s ∈ lambdaNullStrings <;>
    simp [clean_null_values, replaceNullTokens, applyNullLambda, h1, h2]

/-- C4 counterexample: with the external parser's documented
current-date defaulting, the same raw scalar "March 5" (a text carrying
no year) parses to different timestamps on runs made in different
years, so TimestampParser is not a function of the raw input plus the
fixed configuration alone. -/
theorem c4_time_dependent_counterexample :
    parse_timestamp (duYearDefault 2024) (Scalar.text "March 5") ≠
      parse_timestamp (duYearDefault 2025) (Scalar.text "March 5") := by
  decide

/-- C4 amended: PriceParser is independent of the run's external state —
two runs with arbitrary external states return the same result on the
same raw scalar; TimestampParser is deterministic relative to that
state — two runs whose external parser states agree return the same
result; and both normalizers are row-local — the normalized value at a
column position depends only on the raw scalar at that position, never
on other rows. -/
theorem c4_normalizers_purity_amended :
    (∀ (oracle1 oracle2 : Bool → String → Option PyTimestamp) (v : Scalar),
      (runNormalizers oracle1 v).1 = (runNormalizers oracle2 v).1) ∧
    (∀ (oracle1 oracle2 : Bool → String → Option PyTimestamp) (v : Scalar),
      (∀ df t, oracle1 df t = oracle2 df t) →
      runNormalizers oracle1 v = runNormalizers oracle2 v) ∧
    (∀ (oracle : Bool → String → Option PyTimestamp) (col1 col2 : List Scalar) (i : ℕ),
      col1[i]? = col2[i]? →
      (col1.map parse_price)[i]? = (col2.map parse_price)[i]? ∧
      (col1.map (parse_timestamp oracle))[i]? = (col2.map (parse_timestamp oracle))[i]?) := by
  refine ⟨fun oracle1 oracle2 v => rfl, fun oracle1 oracle2 v h => ?_, fun oracle col1 col2 i h => ?_⟩
  · have he : oracle1 = oracle2 := funext fun df => funext fun t => h df t
    rw [he]
  · simp [List.getElem?_map, h]

/-- C4 witness: the amended theorem applied at concrete inputs — the
price of "-3.50" agrees across two runs in different years, the
timestamps agree for two extensionally equal external states, and two
columns agreeing at position 0 normalize to the same values there. -/
theorem c4_normalizers_purity_amended_witness :
    (runNormalizers (duYearDefault 2024) (Scalar.text "-3.50")).1 =
      (runNormalizers (duYearDefault 2025) (Scalar.text "-3.50")).1 ∧
    runNormalizers oracleNone (Scalar.text "-3.50") =
      runNormalizers (fun df t => oracleNone df t) (Scalar.text "-3.50") ∧
    (([Scalar.text "5.00"].map parse_price)[0]? =
      ([Scalar.text "5.00", Scalar.text "9"].map parse_price)[0]? ∧
     ([Scalar.text "5.00"].map (parse_timestamp oracleNone))[0]? =
      ([Scalar.text "5.00", Scalar.text "9"].map (parse_timestamp oracleNone))[0]?) :=
  ⟨c4_normalizers_purity_amended.1 (duYearDefault 2024) (duYearDefault 2025) (Scalar.text "-3.50"),
   c4_normalizers_purity_amended.2.1 oracleNone (fun df t => oracleNone df t)
     (Scalar.text "-3.50") (fun _ _ => rfl),
   c4_normalizers_purity_amended.2.2 oracleNone [Scalar.text "5.00"]
     [Scalar.text "5.00", Scalar.text "9"] 0 (by decide)⟩

/-- C5 counterexample: a malformed textual quantity makes the
multiplication raise TypeError instead of yielding the absent marker. -/
theorem c5_malformed_quantity_raises :
    transform_orders oracleNone [badQtyRow] = .error "TypeError" := by
  decide

/-- C5 amended: in a successfully transformed row, paid_price is the
product quantity × unit_price_usd when both are numbers, and the absent
marker when either operand is absent; a textual quantity instead raises
TypeError (the counterexample), contrary to the claim's last clause. -/
theorem c5_paid_price (oracle : Bool → String → Option PyTimestamp)
    (r : OrderRow) (t : TransOrder) (h : transformOrderRow oracle r = .ok t) :
    (∀ q p, r.quantity = Scalar.num q → t.unit_price_usd = Scalar.num p →
      t.paid_price = Scalar.num (q * p)) ∧
    ((r.quantity = Scalar.absent ∨ t.unit_price_usd = Scalar.absent) →
      t.paid_price = Scalar.absent) := by
  rw [transformOrderRow] at h
  split at h
  · exact absurd h (by simp)
  · rename_i paid hm
    injection h with ht
    subst ht
    refine ⟨fun q p hq hp => ?_, fun hab => ?_⟩
    · dsimp only at hp ⊢
      rw [hq, hp] at hm
      rw [show pyMul (Scalar.num q) (Scalar.num p) = .ok (Scalar.num (q * p)) from by
        simp [pyMul]] at hm
      injection hm with hpaid
      exact hpaid.symm
    · dsimp only at hab ⊢
      rcases hab with ha | hp
      · rw [show pyMul r.quantity (usdOf (clean_null_values r.unit_price)) =
          .ok Scalar.absent from by simp [pyMul, ha]] at hm
        injection hm with hpaid
        exact hpaid.symm
      · rw [show pyMul r.quantity (usdOf (clean_null_values r.unit_price)) =
          .ok Scalar.absent from by simp [pyMul, hp]] at hm
        injection hm with hpaid
        exact hpaid.symm

/-- C5 witness: the amended theorem applied to the concrete row with
quantity 2 and unit price 5.00. -/
theorem c5_paid_price_witness : wTrans.paid_price = Scalar.num 10 := by
  have h := (c5_paid_price oracleNone wRow2 wTrans (by decide)).1 2 5 (by decide) (by decide)
  have e : (2 : ℚ) * 5 = 10 := by norm_num
  rw [e] at h
  exact h

/-- C6: parse_timestamp tries the month-first parse of the preprocessed
text first and returns its result when it succeeds; only when it fails
does it return the day-first parse of the same text; absent input is
absent, and the function is total, so it never raises. -/
theorem c6_timestamp_fallback (oracle : Bool → String → Option PyTimestamp)
    (s : String) (hns : s ∉ nullTokens) :
    (∀ d, oracle false (tsPre s) = some d →
      parse_timestamp oracle (Scalar.text s) = some d) ∧
    (oracle false (tsPre s) = none →
      parse_timestamp oracle (Scalar.text s) = oracle true (tsPre s)) ∧
    parse_timestamp oracle Scalar.absent = none := by
  refine ⟨fun d hd => ?_, fun hn => ?_, rfl⟩
  · simp [parse_timestamp, hns, hd]
  · simp [parse_timestamp, hns, hn]

/-- C6 witness: the theorem applied to a concrete oracle that recognises
the preprocessed ISO string on the month-first attempt only. -/
theorem c6_timestamp_fallback_witness :
    parse_timestamp oracleC6 (Scalar.text "2024-03-01T10:15:00") =
      some ⟨2024, 3, 1, 10, 15, 0⟩ :=
  (c6_timestamp_fallback oracleC6 "2024-03-01T10:15:00" (by decide)).1
    ⟨2024, 3, 1, 10, 15, 0⟩ (by decide)

/-- C7: when the currency-stripped text matches the cents pattern, the
value is digits.digits directly — whatever else the string contains —
and the Euro conversion is applied only when a Euro marker is present;
without a Euro marker the result is exactly round(digits.digits, 2). -/
theorem c7_cents_rule (s : String) (d1 d2 : List Char)
    (hns : s ∉ nullTokens)
    (hcs : centSearch (pyStripL (rmCurAux (pyStripL s.toList))) = some (d1, d2)) :
    parse_price (Scalar.text s) =
      some (roundTo2 (applyEuro (hasEuroMark (pyStripL s.toList)) (centVal d1 d2))) ∧
    (hasEuroMark (pyStripL s.toList) = false →
      parse_price (Scalar.text s) = some (roundTo2 (centVal d1 d2))) := by
  have hv : priceValue (pyStripL (rmCurAux (pyStripL s.toList))) = some (centVal d1 d2) := by
    rw [priceValue, hcs]
  have hp : parse_price (Scalar.text s) =
      some (roundTo2 (applyEuro (hasEuroMark (pyStripL s.toList)) (centVal d1 d2))) := by
    rw [parse_price, if_neg hns, hv]
  refine ⟨hp, fun he => ?_⟩
  rw [hp, he]
  simp [applyEuro]

/-- C7 witness: the theorem applied to "$3¢50", which contains a
currency symbol, matches the cents pattern, and parses to 3.50 with no
conversion. -/
theorem c7_cents_rule_witness :
    parse_price (Scalar.text "$3¢50") = some ((7 : ℚ)/2) := by
  have h := (c7_cents_rule "$3¢50" ['3'] ['5', '0'] (by decide) (by decide)).2 (by decide)
  rw [(by decide : roundTo2 (centVal ['3'] ['5', '0']) = (7 : ℚ)/2)] at h
  exact h

/-- C8: contrary to the claim, the trailing word boundary of the
honorific regex cannot consume the period of "Dr." before a space, so
"Dr. Jane Smith" normalizes to ". jane smith", not "jane smith"; the
substring-safety and empty-result clauses of the claim do hold ("Andre"
is untouched and a whitespace-only name is absent). -/
theorem c8_honorific_period_left :
    normalize_name (some "Dr. Jane Smith") = some ". jane smith" ∧
    normalize_name (some "Andre") = some "andre" ∧
    normalize_name (some "  ") = none := by
  decide

/-- C9: author strings whose trimmed lowercase non-empty token lists
have the same set of elements get equal author-set keys; absent author
text, and text with no non-empty tokens, give the absent key. -/
theorem c9_author_set_key :
    (∀ s1 s2 : String, (authorTokens s1).toFinset = (authorTokens s2).toFinset →
      create_author_set (some s1) = create_author_set (some s2)) ∧
    create_author_set none = none ∧
    (∀ s : String, authorTokens s = [] → create_author_set (some s) = none) := by
  refine ⟨fun s1 s2 h => ?_, rfl, fun s hs => ?_⟩
  · by_cases h1 : authorTokens s1 = []
    · have h2 : authorTokens s2 = [] := by
        rw [← List.toFinset_eq_empty_iff, ← h, List.toFinset_eq_empty_iff]
        exact h1
      simp [create_author_set, h1, h2]
    · have h2 : authorTokens s2 ≠ [] := by
        intro hc
        apply h1
        rw [← List.toFinset_eq_empty_iff, h, List.toFinset_eq_empty_iff]
        exact hc
      simp [create_author_set, h1, h2, h]
  · simp [create_author_set, hs]

/-- C9 witness: the theorem applied to "Bob, Alice, Alice" and
"alice , bob", whose token sets coincide. -/
theorem c9_author_set_key_witness :
    create_author_set (some "Bob, Alice, Alice") = create_author_set (some "alice , bob") := by
  apply c9_author_set_key.1
  have h1 : authorTokens "Bob, Alice, Alice" = ["bob", "alice", "alice"] := by decide
  have h2 : authorTokens "alice , bob" = ["alice", "bob"] := by decide
  rw [h1, h2]
  ext a
  simp only [List.toFinset_cons, List.toFinset_nil, Finset.mem_insert]
  tauto

/-- C10: every numeric result of parse_price is non-negative — sign
characters are removed with the other non-digit characters before the
number is read. -/
theorem c10_price_nonneg (v : Scalar) (q : ℚ) (h : parse_price v = some q) : 0 ≤ q := by
  cases v with
  | absent => simp [parse_price] at h
  | num x =>
    simp only [parse_price, Option.some.injEq] at h
    rw [← h]
    exact roundTo2_nonneg (abs_nonneg x)
  | text s =>
    rw [parse_price] at h
    split_ifs at h with h1
    rcases hv : priceValue (pyStripL (rmCurAux (pyStripL s.toList))) with _ | value
    · rw [hv] at h
      exact absurd h (by simp)
    · rw [hv] at h
      simp only [Option.some.injEq] at h
      rw [← h]
      exact roundTo2_nonneg (applyEuro_nonneg _ _ (priceValue_nonneg hv))

/-- C10 witness: the theorem applied at the sign-bearing input "-3.50",
which parses to the non-negative amount 3.50. -/
theorem c10_price_nonneg_witness : (0 : ℚ) ≤ 7/2 :=
  c10_price_nonneg (Scalar.text "-3.50") (7/2) (by decide)
